import Mathlib

/-!
Shallow embedding of the ink! contract `xcm_handler` (src/contracts/xcm_handler/lib.rs)
and proofs about the claims of its specification.

Modelling conventions:
* `AccountId` is modelled as `Nat` (opaque, comparable identifier).
* `Balance` is `u128` in the source; values are `Nat` and the source's
  `saturating_add` is `satAdd128` (clamped at `2^128 - 1`), `saturating_sub`
  on `Nat` is plain `Nat` subtraction (clamped at `0`), exactly as in Rust.
* The payment counter is `u32` in the source; its `saturating_add(1)` is
  `satAdd32` (clamped at `2^32 - 1`).
* `ink::storage::Mapping` is modelled as an association list
  `List (Nat × β)` whose `insert` removes any previous binding of the key,
  so that the sum of all stored values is literally the sum over entries.
* The implicit environment (`env().caller()`, `env().block_timestamp()`,
  `env().transferred_value()`) is passed as explicit arguments.
* Events are observational only and are not modelled.
-/

namespace Xcm

/-- Largest value of a `u32`, the type of the payment counter. -/
def U32MAX : Nat := 2 ^ 32 - 1

/-- Largest value of a `u128`, the type of balances and amounts. -/
def U128MAX : Nat := 2 ^ 128 - 1

/-- Rust `u32::saturating_add` on the payment counter. -/
def satAdd32 (a b : Nat) : Nat := min (a + b) U32MAX

/-- Rust `u128::saturating_add` on balances. -/
def satAdd128 (a b : Nat) : Nat := min (a + b) U128MAX

/-- Lookup in an association-list map, mirroring `Mapping::get`. -/
def lookupA {β : Type} (k : Nat) : List (Nat × β) → Option β
  | [] => none
  | p :: rest => if k = p.1 then some p.2 else lookupA k rest

/-- Remove every binding of key `k`; used by `insertA` so that keys stay unique. -/
def eraseA {β : Type} (k : Nat) : List (Nat × β) → List (Nat × β)
  | [] => []
  | p :: rest => if p.1 = k then eraseA k rest else p :: eraseA k rest

/-- Overwriting insertion, mirroring `Mapping::insert`. -/
def insertA {β : Type} (k : Nat) (v : β) (m : List (Nat × β)) : List (Nat × β) :=
  (k, v) :: eraseA k m

/-- Key-membership test, mirroring `Mapping::contains`. -/
def containsA {β : Type} (k : Nat) (m : List (Nat × β)) : Bool :=
  (lookupA k m).isSome

/-- XCM message types for cross-chain payments (enum `XcmMessageType`). -/
inductive XcmMessageType where
  | Payment
  | BillSplitting
  | TokenTransfer
  | Refund
deriving DecidableEq

/-- Contract errors (enum `Error`). -/
inductive Error where
  | PaymentNotFound
  | UnauthorizedAccess
  | InvalidAmount
  | InvalidChain
  | AlreadyExecuted
  | InsufficientBalance
  | XcmExecutionFailed
  | InvalidDestination
deriving DecidableEq

/-- Contract storage (struct `XcmHandler`). -/
structure XcmHandler where
  payment_senders : List (Nat × Nat)
  payment_recipients : List (Nat × Nat)
  payment_amounts : List (Nat × Nat)
  payment_source_chains : List (Nat × Nat)
  payment_destination_chains : List (Nat × Nat)
  payment_types : List (Nat × Nat)
  payment_executed : List (Nat × Bool)
  payment_timestamps : List (Nat × Nat)
  supported_chains : List (Nat × Bool)
  balances : List (Nat × Nat)
  payment_counter : Nat
  owner : Nat
  relayers : List (Nat × Nat)
deriving DecidableEq

/-- Constructor `XcmHandler::new`: empty storage, counter 0, the caller becomes
the owner, and chains 1000 (Rococo), 2000 (Westend), 3000 (Kusama) are
inserted as supported by default. -/
def XcmHandler.new (caller : Nat) : XcmHandler :=
  { payment_senders := []
    payment_recipients := []
    payment_amounts := []
    payment_source_chains := []
    payment_destination_chains := []
    payment_types := []
    payment_executed := []
    payment_timestamps := []
    supported_chains := insertA 3000 true (insertA 2000 true (insertA 1000 true []))
    balances := []
    payment_counter := 0
    owner := caller
    relayers := [] }

/-- Encoding of `XcmMessageType` as `u8`, as in `create_cross_chain_payment`. -/
def encodeMsgType : XcmMessageType → Nat
  | .Payment => 0
  | .BillSplitting => 1
  | .TokenTransfer => 2
  | .Refund => 3

/-- Message `create_cross_chain_payment`. Validates amount, chain support and
sender balance in that order; on success stores the record under the current
counter, debits the sender with `saturating_sub`, and bumps the counter with
`saturating_add(1)`. Returns the updated state and the `Result`. -/
def create_cross_chain_payment (s : XcmHandler) (caller recipient amount destination_chain : Nat)
    (message_type : XcmMessageType) (now : Nat) : XcmHandler × Except Error Nat :=
  let sender := caller
  if amount = 0 then
    (s, .error .InvalidAmount)
  else if !((lookupA destination_chain s.supported_chains).getD false) then
    (s, .error .InvalidChain)
  else
    let sender_balance := (lookupA sender s.balances).getD 0
    if sender_balance < amount then
      (s, .error .InsufficientBalance)
    else
      let source_chain := 1000
      let payment_id := s.payment_counter
      let msg_type := encodeMsgType message_type
      ({ s with
          payment_senders := insertA payment_id sender s.payment_senders
          payment_recipients := insertA payment_id recipient s.payment_recipients
          payment_amounts := insertA payment_id amount s.payment_amounts
          payment_source_chains := insertA payment_id source_chain s.payment_source_chains
          payment_destination_chains := insertA payment_id destination_chain s.payment_destination_chains
          payment_types := insertA payment_id msg_type s.payment_types
          payment_executed := insertA payment_id false s.payment_executed
          payment_timestamps := insertA payment_id now s.payment_timestamps
          balances := insertA sender (sender_balance - amount) s.balances
          payment_counter := satAdd32 s.payment_counter 1 },
        .ok payment_id)

/-- Message `execute_cross_chain_payment`. Checks record existence, the
`executed` flag and the caller authorization (destination chain's relayer or
the owner); on success marks the record executed and credits the recipient
with `saturating_add`. The source reads recipient and sender with `unwrap()`,
which on every reachable state finds an entry; here the read is `getD 0`. -/
def execute_cross_chain_payment (s : XcmHandler) (caller payment_id : Nat) :
    XcmHandler × Except Error Unit :=
  if !(containsA payment_id s.payment_senders) then
    (s, .error .PaymentNotFound)
  else if (lookupA payment_id s.payment_executed).getD false then
    (s, .error .AlreadyExecuted)
  else
    let destination_chain := (lookupA payment_id s.payment_destination_chains).getD 0
    let authorized_relayer := lookupA destination_chain s.relayers
    if authorized_relayer ≠ some caller ∧ caller ≠ s.owner then
      (s, .error .UnauthorizedAccess)
    else
      let recipient := (lookupA payment_id s.payment_recipients).getD 0
      let amount := (lookupA payment_id s.payment_amounts).getD 0
      let recipient_balance := (lookupA recipient s.balances).getD 0
      ({ s with
          payment_executed := insertA payment_id true s.payment_executed
          balances := insertA recipient (satAdd128 recipient_balance amount) s.balances },
        .ok ())

/-- Message `configure_chain`: owner-only; overwrites the supported flag and,
only when a relayer is supplied, the relayer binding for the chain. -/
def configure_chain (s : XcmHandler) (caller chain_id : Nat) (supported : Bool)
    (relayer : Option Nat) : XcmHandler × Except Error Unit :=
  if caller ≠ s.owner then
    (s, .error .UnauthorizedAccess)
  else
    let s1 := { s with supported_chains := insertA chain_id supported s.supported_chains }
    match relayer with
    | some relayer_address =>
        ({ s1 with relayers := insertA chain_id relayer_address s1.relayers }, .ok ())
    | none => (s1, .ok ())

/-- Message `deposit` (payable): credits the caller with the transferred value
using `saturating_add`, only when the value is positive. -/
def deposit (s : XcmHandler) (caller amount : Nat) : XcmHandler :=
  if 0 < amount then
    let current_balance := (lookupA caller s.balances).getD 0
    { s with balances := insertA caller (satAdd128 current_balance amount) s.balances }
  else s

/-- Query `get_payment_info`. -/
def get_payment_info (s : XcmHandler) (payment_id : Nat) :
    Option (Nat × Nat × Nat × Nat × Nat × Bool) :=
  if !(containsA payment_id s.payment_senders) then none
  else
    match lookupA payment_id s.payment_senders, lookupA payment_id s.payment_recipients with
    | some sender, some recipient =>
        some (sender, recipient,
          (lookupA payment_id s.payment_amounts).getD 0,
          (lookupA payment_id s.payment_source_chains).getD 0,
          (lookupA payment_id s.payment_destination_chains).getD 0,
          (lookupA payment_id s.payment_executed).getD false)
    | _, _ => none

/-- Query `get_balance`. -/
def get_balance (s : XcmHandler) (account : Nat) : Nat :=
  (lookupA account s.balances).getD 0

/-- Query `is_chain_supported`. -/
def is_chain_supported (s : XcmHandler) (chain_id : Nat) : Bool :=
  (lookupA chain_id s.supported_chains).getD false

/-- Query `get_pending_payments_count`: linear scan of ids `0 ≤ i < counter`,
counting (with `u32` saturating increments, as in the source) the records
where the user is sender or recipient and `executed` is false. -/
def get_pending_payments_count (s : XcmHandler) (user : Nat) : Nat :=
  (List.range s.payment_counter).foldl (fun count i =>
    match lookupA i s.payment_senders with
    | some sender =>
        match lookupA i s.payment_recipients with
        | some recipient =>
            let executed := (lookupA i s.payment_executed).getD false
            if (sender = user ∨ recipient = user) ∧ executed = false then
              satAdd32 count 1
            else count
        | none => count
    | none => count) 0

/-- One external call to the contract, with the caller identity (and for
`create` the block timestamp) made explicit. -/
inductive Op where
  | deposit (caller amount : Nat)
  | create (caller recipient amount destChain : Nat) (mt : XcmMessageType) (ts : Nat)
  | execute (caller pid : Nat)
  | configure (caller chainId : Nat) (supported : Bool) (relayer : Option Nat)
deriving DecidableEq

/-- State transition of a single call (the returned `Result` is dropped). -/
def applyOp (s : XcmHandler) : Op → XcmHandler
  | .deposit c a => deposit s c a
  | .create c r a dc mt ts => (create_cross_chain_payment s c r a dc mt ts).1
  | .execute c pid => (execute_cross_chain_payment s c pid).1
  | .configure c cid sup rel => (configure_chain s c cid sup rel).1

/-- State after a finite sequence of calls. -/
def run (s : XcmHandler) (tr : List Op) : XcmHandler :=
  tr.foldl applyOp s

/-- Amount carried by a `deposit` call (0 for every other call). -/
def Op.depositAmount : Op → Nat
  | .deposit _ a => a
  | _ => 0

/-- Whether a call is a `create_cross_chain_payment` call. -/
def Op.isCreate : Op → Bool
  | .create .. => true
  | _ => false

/-- Sum of all amounts ever deposited along a call sequence. -/
def depositTotal : List Op → Nat
  | [] => 0
  | op :: tr => op.depositAmount + depositTotal tr

/-- Number of `create` calls in a call sequence. -/
def createCount : List Op → Nat
  | [] => 0
  | op :: tr => (if op.isCreate then 1 else 0) + createCount tr

/-- Sum of all values stored in a balance map. -/
def valSum (m : List (Nat × Nat)) : Nat :=
  (m.map Prod.snd).sum

/-- Sum of the amounts of all stored payment records whose executed flag is
false (reading the flag from the `payment_executed` map, default false). -/
def pendingAmounts (amounts : List (Nat × Nat)) (executed : List (Nat × Bool)) : Nat :=
  (amounts.map (fun p => if (lookupA p.1 executed).getD false then 0 else p.2)).sum

/-- Spec-side counterpart of `get_pending_payments_count`, following the
claim's wording: the ids `0 ≤ i < payment_counter` whose stored record has
the user as sender or as recipient and whose executed flag is false. -/
def pendingIdsSpec (s : XcmHandler) (user : Nat) : List Nat :=
  (List.range s.payment_counter).filter (fun i =>
    decide ((lookupA i s.payment_senders = some user
        ∨ lookupA i s.payment_recipients = some user)
      ∧ (lookupA i s.payment_executed).getD false = false))

/-- The keys of an association-list map are pairwise distinct. This holds for
every map reachable from the empty map through `insertA`. -/
def NodupKeys {β : Type} (m : List (Nat × β)) : Prop :=
  m.Pairwise (fun p q => p.1 ≠ q.1)

/-- Invariant tying an engine state to the total `d` of all deposits made so
far: keys are unique, every stored amount sits below the counter, the counter
fits in a `u32`, and the funds on the books (balances plus non-executed
amounts) equal `d`. -/
structure Inv (s : XcmHandler) (d : Nat) : Prop where
  nodupBal : NodupKeys s.balances
  nodupAmt : NodupKeys s.payment_amounts
  keysLt : ∀ p ∈ s.payment_amounts, p.1 < s.payment_counter
  ctrLe : s.payment_counter ≤ U32MAX
  books : valSum s.balances + pendingAmounts s.payment_amounts s.payment_executed = d

/-- Association list `[(k-1, v), ..., (1, v), (0, v)]`: the contents of a
payment-record column after `k` identical creations. -/
def descPairs {β : Type} (v : β) : Nat → List (Nat × β)
  | 0 => []
  | k + 1 => (k, v) :: descPairs v k

/-- A creation call used to drive the counter to its `u32` cap: account 1
pays 1 unit to account 2 towards default chain 1000. -/
def mkCreateOp : Op := .create 1 2 1 1000 .Payment 0

/-- Initial funding for the cap scenario: enough for `2^32 + 2` unit payments. -/
def bigD : Nat := U32MAX + 5

/-- Engine state reached from a fresh engine (owner 0) by depositing `bigD`
to account 1 and then performing `k ≤ 2^32 - 1` copies of `mkCreateOp`. -/
def stateAfterCreates (k : Nat) : XcmHandler :=
  { payment_senders := descPairs 1 k
    payment_recipients := descPairs 2 k
    payment_amounts := descPairs 1 k
    payment_source_chains := descPairs 1000 k
    payment_destination_chains := descPairs 1000 k
    payment_types := descPairs 0 k
    payment_executed := descPairs false k
    payment_timestamps := descPairs 0 k
    supported_chains := (XcmHandler.new 0).supported_chains
    balances := [(1, bigD - k)]
    payment_counter := k
    owner := 0
    relayers := [] }

/-- State after one further creation at the saturated counter: the record
columns hold `2^32` entries but the counter is stuck at `2^32 - 1`. -/
def stateCapB : XcmHandler :=
  { stateAfterCreates (U32MAX + 1) with payment_counter := U32MAX }

/-- State after the owner executes payment `2^32 - 1` in `stateCapB`. -/
def stateCapExec : XcmHandler :=
  { stateCapB with
      payment_executed := (U32MAX, true) :: descPairs false U32MAX
      balances := [(2, 1), (1, bigD - (U32MAX + 1))] }

/-- State after yet another creation from `stateCapExec`: the saturated
counter reassigns id `2^32 - 1`, overwriting the executed record. -/
def stateCapRe : XcmHandler :=
  { stateCapB with balances := [(1, bigD - (U32MAX + 1) - 1), (2, 1)] }

/-! ### Association-list map lemmas -/

theorem lookupA_insertA_self {β : Type} (k : Nat) (v : β) (m : List (Nat × β)) :
    lookupA k (insertA k v m) = some v := by
  simp [insertA, lookupA]

theorem lookupA_eraseA_ne {β : Type} {j k : Nat} (m : List (Nat × β)) (h : j ≠ k) :
    lookupA j (eraseA k m) = lookupA j m := by
  induction m with
  | nil => rfl
  | cons p rest ih =>
      by_cases hp : p.1 = k
      · simp [eraseA, lookupA, hp, h, ih]
      · simp [eraseA, lookupA, hp, ih]

theorem lookupA_insertA_ne {β : Type} {j k : Nat} (h : j ≠ k) (v : β) (m : List (Nat × β)) :
    lookupA j (insertA k v m) = lookupA j m := by
  simp [insertA, lookupA, h, lookupA_eraseA_ne m h]

theorem lookupA_eraseA_self {β : Type} (k : Nat) (m : List (Nat × β)) :
    lookupA k (eraseA k m) = none := by
  induction m with
  | nil => rfl
  | cons p rest ih =>
      by_cases hp : p.1 = k
      · simp [eraseA, hp, ih]
      · have hk : k ≠ p.1 := fun hq => hp hq.symm
        simp [eraseA, lookupA, hp, hk, ih]

theorem eraseA_of_forall_ne {β : Type} {k : Nat} {m : List (Nat × β)}
    (h : ∀ p ∈ m, p.1 ≠ k) : eraseA k m = m := by
  induction m with
  | nil => rfl
  | cons p rest ih =>
      have hp : p.1 ≠ k := h p (by simp)
      simp [eraseA, hp]
      exact ih fun q hq => h q (by simp [hq])

/-! ### C10: default-supported chains at construction -/

/-- C10: a freshly constructed engine reports `is_chain_supported` as true for
exactly the chain ids 1000, 2000 and 3000, and a creation towards each of
these chains can succeed without any prior configuration. -/
theorem C10_default_supported_chains (o c : Nat) :
    is_chain_supported (XcmHandler.new o) c = (c == 1000 || c == 2000 || c == 3000)
    ∧ (create_cross_chain_payment (deposit (XcmHandler.new o) 5 10) 5 6 10 1000 .Payment 0).2
        = .ok 0
    ∧ (create_cross_chain_payment (deposit (XcmHandler.new o) 5 10) 5 6 10 2000 .Payment 0).2
        = .ok 0
    ∧ (create_cross_chain_payment (deposit (XcmHandler.new o) 5 10) 5 6 10 3000 .Payment 0).2
        = .ok 0 := by
  refine ⟨?_, rfl, rfl, rfl⟩
  by_cases h1 : c = 1000
  · simp [is_chain_supported, XcmHandler.new, insertA, eraseA, lookupA, h1]
  by_cases h2 : c = 2000
  · simp [is_chain_supported, XcmHandler.new, insertA, eraseA, lookupA, h1, h2]
  by_cases h3 : c = 3000
  · simp [is_chain_supported, XcmHandler.new, insertA, eraseA, lookupA, h1, h2, h3]
  · simp [is_chain_supported, XcmHandler.new, insertA, eraseA, lookupA, h1, h2, h3]

/-! ### C4: creation validation order -/

/-- C4: `create_cross_chain_payment` applies its checks in the order
zero amount (`InvalidAmount`), unsupported chain (`InvalidChain`),
insufficient balance (`InsufficientBalance`); the first failing check
determines the error, so a zero amount wins even on an unsupported chain. -/
theorem C4_creation_validation_order (s : XcmHandler) (c r a dc : Nat)
    (mt : XcmMessageType) (ts : Nat) :
    (a = 0 → create_cross_chain_payment s c r a dc mt ts = (s, .error .InvalidAmount))
    ∧ (a ≠ 0 → (lookupA dc s.supported_chains).getD false = false →
        create_cross_chain_payment s c r a dc mt ts = (s, .error .InvalidChain))
    ∧ (a ≠ 0 → (lookupA dc s.supported_chains).getD false = true →
        (lookupA c s.balances).getD 0 < a →
        create_cross_chain_payment s c r a dc mt ts = (s, .error .InsufficientBalance)) := by
  refine ⟨fun h0 => ?_, fun h0 hc => ?_, fun h0 hc hb => ?_⟩
  · simp [create_cross_chain_payment, h0]
  · simp [create_cross_chain_payment, h0, hc]
  · simp [create_cross_chain_payment, h0, hc, hb]

/-- Witness for C4: `create(amount = 0, chain = 9999)` on a fresh engine
(chain 9999 unsupported) yields `InvalidAmount`, not `InvalidChain`. -/
theorem C4_witness :
    create_cross_chain_payment (XcmHandler.new 0) 1 2 0 9999 .Payment 0
      = (XcmHandler.new 0, .error .InvalidAmount) :=
  (C4_creation_validation_order (XcmHandler.new 0) 1 2 0 9999 .Payment 0).1 rfl

/-! ### C5: create-failure atomicity -/

/-- C5: whenever `create_cross_chain_payment` returns an error, the engine
state is returned unchanged (balances, counter, records, registry). -/
theorem C5_create_failure_atomicity (s : XcmHandler) (c r a dc : Nat) (mt : XcmMessageType)
    (ts : Nat) (e : Error) (h : (create_cross_chain_payment s c r a dc mt ts).2 = .error e) :
    (create_cross_chain_payment s c r a dc mt ts).1 = s := by
  by_cases h0 : a = 0
  · simp [create_cross_chain_payment, h0]
  by_cases h1 : (lookupA dc s.supported_chains).getD false
  · by_cases h2 : (lookupA c s.balances).getD 0 < a
    · simp [create_cross_chain_payment, h0, h1, h2]
    · simp [create_cross_chain_payment, h0, h1, h2] at h
  · simp [create_cross_chain_payment, h0, h1]

/-- Witness for C5: the scenario `create(amount = 1000, chain = 9999)` with
chain 9999 never configured fails with `InvalidChain` and changes nothing. -/
theorem C5_witness :
    (create_cross_chain_payment (XcmHandler.new 0) 1 2 1000 9999 .Payment 0).2
        = .error .InvalidChain
    ∧ (create_cross_chain_payment (XcmHandler.new 0) 1 2 1000 9999 .Payment 0).1
        = XcmHandler.new 0 :=
  ⟨rfl, C5_create_failure_atomicity (XcmHandler.new 0) 1 2 1000 9999 .Payment 0 .InvalidChain rfl⟩

/-! ### C3: authorization gate on execute -/

/-- C3: executing an existing, not-yet-executed payment with a caller that is
neither the relayer bound to the record's destination chain nor the owner
returns `UnauthorizedAccess` and leaves the whole state unchanged. -/
theorem C3_execute_authorization_gate (s : XcmHandler) (caller pid dc : Nat)
    (hex : containsA pid s.payment_senders = true)
    (hne : (lookupA pid s.payment_executed).getD false = false)
    (hdc : lookupA pid s.payment_destination_chains = some dc)
    (hrel : lookupA dc s.relayers ≠ some caller)
    (hown : caller ≠ s.owner) :
    execute_cross_chain_payment s caller pid = (s, .error .UnauthorizedAccess) := by
  simp [execute_cross_chain_payment, hex, hne, hdc, hrel, hown]

/-- Witness for C3: after a deposit and a creation towards chain 1000 with no
relayer configured, account 7 (not the owner) cannot execute payment 0. -/
theorem C3_witness :
    (containsA 0 (run (XcmHandler.new 0) [.deposit 1 100, .create 1 2 5 1000 .Payment 0]).payment_senders = true)
    ∧ execute_cross_chain_payment
        (run (XcmHandler.new 0) [.deposit 1 100, .create 1 2 5 1000 .Payment 0]) 7 0
      = (run (XcmHandler.new 0) [.deposit 1 100, .create 1 2 5 1000 .Payment 0],
         .error .UnauthorizedAccess) :=
  ⟨rfl,
   C3_execute_authorization_gate
     (run (XcmHandler.new 0) [.deposit 1 100, .create 1 2 5 1000 .Payment 0]) 7 0 1000
     rfl rfl rfl (by decide) (by decide)⟩

/-! ### C9: chain configuration -/

/-- C9: `configure_chain` by a non-owner fails with `UnauthorizedAccess` and
changes nothing; by the owner it overwrites the supported flag of exactly the
given chain, leaves the relayer registry untouched when no relayer is
supplied, and overwrites exactly the given chain's relayer otherwise. -/
theorem C9_configure_chain (s : XcmHandler) (caller cid : Nat) (sup : Bool)
    (rel : Option Nat) :
    (caller ≠ s.owner →
        configure_chain s caller cid sup rel = (s, .error .UnauthorizedAccess))
    ∧ (caller = s.owner →
        (configure_chain s caller cid sup rel).2 = .ok ()
        ∧ lookupA cid (configure_chain s caller cid sup rel).1.supported_chains = some sup
        ∧ (∀ c2, c2 ≠ cid →
            lookupA c2 (configure_chain s caller cid sup rel).1.supported_chains
              = lookupA c2 s.supported_chains)
        ∧ (rel = none → (configure_chain s caller cid sup rel).1.relayers = s.relayers)
        ∧ (∀ r2, rel = some r2 →
            lookupA cid (configure_chain s caller cid sup rel).1.relayers = some r2
            ∧ ∀ c2, c2 ≠ cid →
                lookupA c2 (configure_chain s caller cid sup rel).1.relayers
                  = lookupA c2 s.relayers)) := by
  constructor
  · intro h
    simp [configure_chain, h]
  · intro h
    cases rel with
    | none =>
        refine ⟨by simp [configure_chain, h], ?_, ?_, fun _ => by simp [configure_chain, h], ?_⟩
        · simp [configure_chain, h, lookupA_insertA_self]
        · intro c2 hc2
          simp [configure_chain, h, lookupA_insertA_ne hc2]
        · intro r2 hr2
          exact absurd hr2 (by simp)
    | some r2 =>
        refine ⟨by simp [configure_chain, h], ?_, ?_, by simp, ?_⟩
        · simp [configure_chain, h, lookupA_insertA_self]
        · intro c2 hc2
          simp [configure_chain, h, lookupA_insertA_ne hc2]
        · intro r3 hr3
          cases hr3
          constructor
          · simp [configure_chain, h, lookupA_insertA_self]
          · intro c2 hc2
            simp [configure_chain, h, lookupA_insertA_ne hc2]

/-- Witness for C9: on a fresh engine owned by account 0, account 5 cannot
configure chain 42, while the owner can set its flag and bind relayer 9. -/
theorem C9_witness :
    configure_chain (XcmHandler.new 0) 5 42 true (some 9)
        = (XcmHandler.new 0, .error .UnauthorizedAccess)
    ∧ lookupA 42 (configure_chain (XcmHandler.new 0) 0 42 true (some 9)).1.supported_chains
        = some true
    ∧ lookupA 42 (configure_chain (XcmHandler.new 0) 0 42 true (some 9)).1.relayers = some 9 :=
  ⟨(C9_configure_chain (XcmHandler.new 0) 5 42 true (some 9)).1 (by decide),
   ((C9_configure_chain (XcmHandler.new 0) 0 42 true (some 9)).2 rfl).2.1,
   (((C9_configure_chain (XcmHandler.new 0) 0 42 true (some 9)).2 rfl).2.2.2.2 9 rfl).1⟩

/-! ### Key uniqueness and sums -/

theorem eraseA_sublist {β : Type} (k : Nat) (m : List (Nat × β)) :
    (eraseA k m).Sublist m := by
  induction m with
  | nil => simp [eraseA]
  | cons p rest ih =>
      by_cases h : p.1 = k
      · simpa [eraseA, h] using ih.cons p
      · simpa [eraseA, h] using ih.cons₂ p

theorem mem_eraseA_ne {β : Type} {k : Nat} {m : List (Nat × β)} {p : Nat × β}
    (hp : p ∈ eraseA k m) : p.1 ≠ k := by
  induction m with
  | nil => simp [eraseA] at hp
  | cons q rest ih =>
      by_cases h : q.1 = k
      · exact ih (by simpa [eraseA, h] using hp)
      · rcases (by simpa [eraseA, h] using hp : p = q ∨ p ∈ eraseA k rest) with rfl | hm
        · exact h
        · exact ih hm

theorem nodupKeys_eraseA {β : Type} (k : Nat) {m : List (Nat × β)} (h : NodupKeys m) :
    NodupKeys (eraseA k m) :=
  h.sublist (eraseA_sublist k m)

theorem nodupKeys_insertA {β : Type} (k : Nat) (v : β) {m : List (Nat × β)}
    (h : NodupKeys m) : NodupKeys (insertA k v m) := by
  refine List.Pairwise.cons ?_ (nodupKeys_eraseA k h)
  exact fun q hq he => (mem_eraseA_ne hq) he.symm

theorem lookupA_getD_le_valSum (k : Nat) (m : List (Nat × Nat)) :
    (lookupA k m).getD 0 ≤ valSum m := by
  induction m with
  | nil => simp [lookupA, valSum]
  | cons p rest ih =>
      by_cases h : k = p.1
      · simp [lookupA, valSum, h]
      · simp only [lookupA, if_neg h, valSum, List.map_cons, List.sum_cons]
        exact le_trans ih (Nat.le_add_left _ _)

theorem valSum_eraseA {k : Nat} {m : List (Nat × Nat)} (h : NodupKeys m) :
    valSum (eraseA k m) + (lookupA k m).getD 0 = valSum m := by
  induction m with
  | nil => rfl
  | cons p rest ih =>
      have hpair := List.pairwise_cons.mp h
      by_cases hp : p.1 = k
      · have hfr : ∀ q ∈ rest, q.1 ≠ k := fun q hq he =>
          (hpair.1 q hq) (hp.trans he.symm)
        have hkp : k = p.1 := hp.symm
        simp only [eraseA, if_pos hp, eraseA_of_forall_ne hfr, lookupA, if_pos hkp,
          Option.getD_some, valSum, List.map_cons, List.sum_cons]
        omega
      · have hkp : ¬ k = p.1 := fun he => hp he.symm
        have := ih hpair.2
        simp only [eraseA, if_neg hp, lookupA, if_neg hkp, valSum, List.map_cons,
          List.sum_cons] at this ⊢
        omega

theorem valSum_insertA {k v : Nat} {m : List (Nat × Nat)} (h : NodupKeys m) :
    valSum (insertA k v m) + (lookupA k m).getD 0 = valSum m + v := by
  have h1 := valSum_eraseA (k := k) h
  simp only [insertA, valSum, List.map_cons, List.sum_cons]
  simp only [valSum] at h1
  omega

theorem pendingAmounts_congr {amounts : List (Nat × Nat)} {e1 e2 : List (Nat × Bool)}
    (h : ∀ p ∈ amounts, lookupA p.1 e1 = lookupA p.1 e2) :
    pendingAmounts amounts e1 = pendingAmounts amounts e2 := by
  unfold pendingAmounts
  congr 1
  exact List.map_congr_left fun p hp => by rw [h p hp]

theorem pendingAmounts_create {k v : Nat} {amounts : List (Nat × Nat)}
    {e : List (Nat × Bool)} (hfresh : ∀ p ∈ amounts, p.1 ≠ k) :
    pendingAmounts (insertA k v amounts) (insertA k false e)
      = v + pendingAmounts amounts e := by
  rw [insertA, eraseA_of_forall_ne hfresh]
  have hcg : pendingAmounts amounts (insertA k false e) = pendingAmounts amounts e :=
    pendingAmounts_congr fun p hp => lookupA_insertA_ne (hfresh p hp) false e
  simp only [pendingAmounts, List.map_cons, List.sum_cons, lookupA_insertA_self,
    Option.getD_some, if_false, Bool.false_eq_true, ite_false]
  simpa [pendingAmounts] using hcg

theorem lookupA_cons {β : Type} (k : Nat) (p : Nat × β) (rest : List (Nat × β)) :
    lookupA k (p :: rest) = if k = p.1 then some p.2 else lookupA k rest := rfl

theorem pendingAmounts_cons (p : Nat × Nat) (rest : List (Nat × Nat))
    (e : List (Nat × Bool)) :
    pendingAmounts (p :: rest) e
      = (if (lookupA p.1 e).getD false then 0 else p.2) + pendingAmounts rest e := by
  simp [pendingAmounts]

theorem pendingAmounts_execute {pid : Nat} {amounts : List (Nat × Nat)}
    {e : List (Nat × Bool)} (hnd : NodupKeys amounts)
    (hf : (lookupA pid e).getD false = false) :
    pendingAmounts amounts (insertA pid true e) + (lookupA pid amounts).getD 0
      = pendingAmounts amounts e := by
  induction amounts with
  | nil => simp [pendingAmounts, lookupA]
  | cons p rest ih =>
      have hpair := List.pairwise_cons.mp hnd
      rw [pendingAmounts_cons, pendingAmounts_cons, lookupA_cons]
      by_cases hp : pid = p.1
      · have hcg : pendingAmounts rest (insertA pid true e) = pendingAmounts rest e :=
          pendingAmounts_congr fun q hq =>
            lookupA_insertA_ne (fun he => (hpair.1 q hq).symm (he.trans hp)) true e
        rw [if_pos hp, ← hp, lookupA_insertA_self, hcg, hf]
        simp
        omega
      · have hne : p.1 ≠ pid := fun he => hp he.symm
        rw [if_neg hp, lookupA_insertA_ne hne]
        have hih := ih hpair.2
        omega

theorem lookupA_getD_le_pendingAmounts {pid : Nat} {amounts : List (Nat × Nat)}
    {e : List (Nat × Bool)} (hf : (lookupA pid e).getD false = false) :
    (lookupA pid amounts).getD 0 ≤ pendingAmounts amounts e := by
  induction amounts with
  | nil => simp [lookupA]
  | cons p rest ih =>
      by_cases hp : pid = p.1
      · have : (lookupA p.1 e).getD false = false := hp ▸ hf
        simp only [lookupA, if_pos hp, Option.getD_some, pendingAmounts, List.map_cons,
          List.sum_cons, this, ite_false, Bool.false_eq_true]
        exact Nat.le_add_right _ _
      · simp only [lookupA, if_neg hp, pendingAmounts, List.map_cons, List.sum_cons]
        exact le_trans ih (Nat.le_add_left _ _)

/-! ### Characterizations of the four calls -/

theorem deposit_cases (s : XcmHandler) (c a : Nat) :
    deposit s c a = s ∨
    (0 < a ∧ deposit s c a =
      { s with balances := insertA c (satAdd128 ((lookupA c s.balances).getD 0) a) s.balances }) := by
  unfold deposit
  split
  · exact Or.inr ⟨by assumption, rfl⟩
  · exact Or.inl rfl

theorem create_cases (s : XcmHandler) (c r a dc : Nat) (mt : XcmMessageType) (ts : Nat) :
    (∃ e, create_cross_chain_payment s c r a dc mt ts = (s, .error e)) ∨
    (a ≠ 0 ∧ a ≤ (lookupA c s.balances).getD 0 ∧
     create_cross_chain_payment s c r a dc mt ts =
      ({ s with
          payment_senders := insertA s.payment_counter c s.payment_senders
          payment_recipients := insertA s.payment_counter r s.payment_recipients
          payment_amounts := insertA s.payment_counter a s.payment_amounts
          payment_source_chains := insertA s.payment_counter 1000 s.payment_source_chains
          payment_destination_chains := insertA s.payment_counter dc s.payment_destination_chains
          payment_types := insertA s.payment_counter (encodeMsgType mt) s.payment_types
          payment_executed := insertA s.payment_counter false s.payment_executed
          payment_timestamps := insertA s.payment_counter ts s.payment_timestamps
          balances := insertA c ((lookupA c s.balances).getD 0 - a) s.balances
          payment_counter := satAdd32 s.payment_counter 1 },
        .ok s.payment_counter)) := by
  by_cases h0 : a = 0
  · exact Or.inl ⟨.InvalidAmount, by simp [create_cross_chain_payment, h0]⟩
  by_cases h1 : (lookupA dc s.supported_chains).getD false
  · by_cases h2 : (lookupA c s.balances).getD 0 < a
    · exact Or.inl ⟨.InsufficientBalance, by simp [create_cross_chain_payment, h0, h1, h2]⟩
    · exact Or.inr ⟨h0, Nat.le_of_not_lt h2,
        by simp [create_cross_chain_payment, h0, h1, h2]⟩
  · exact Or.inl ⟨.InvalidChain, by simp [create_cross_chain_payment, h0, h1]⟩

theorem execute_cases (s : XcmHandler) (c pid : Nat) :
    (∃ e, execute_cross_chain_payment s c pid = (s, .error e)) ∨
    (containsA pid s.payment_senders = true
     ∧ (lookupA pid s.payment_executed).getD false = false
     ∧ execute_cross_chain_payment s c pid =
      ({ s with
          payment_executed := insertA pid true s.payment_executed
          balances := insertA ((lookupA pid s.payment_recipients).getD 0)
            (satAdd128
              ((lookupA ((lookupA pid s.payment_recipients).getD 0) s.balances).getD 0)
              ((lookupA pid s.payment_amounts).getD 0)) s.balances },
        .ok ())) := by
  by_cases h1 : containsA pid s.payment_senders
  · by_cases h2 : (lookupA pid s.payment_executed).getD false
    · exact Or.inl ⟨.AlreadyExecuted, by simp [execute_cross_chain_payment, h1, h2]⟩
    · by_cases h3 : lookupA ((lookupA pid s.payment_destination_chains).getD 0) s.relayers
          ≠ some c ∧ c ≠ s.owner
      · exact Or.inl ⟨.UnauthorizedAccess, by simp [execute_cross_chain_payment, h1, h2, h3]⟩
      · exact Or.inr ⟨h1, by simpa using h2,
          by simp [execute_cross_chain_payment, h1, h2, h3]⟩
  · exact Or.inl ⟨.PaymentNotFound, by simp [execute_cross_chain_payment, h1]⟩

theorem configure_frame (s : XcmHandler) (c cid : Nat) (sup : Bool) (rel : Option Nat) :
    (configure_chain s c cid sup rel).1.payment_senders = s.payment_senders
    ∧ (configure_chain s c cid sup rel).1.payment_recipients = s.payment_recipients
    ∧ (configure_chain s c cid sup rel).1.payment_amounts = s.payment_amounts
    ∧ (configure_chain s c cid sup rel).1.payment_destination_chains
        = s.payment_destination_chains
    ∧ (configure_chain s c cid sup rel).1.payment_executed = s.payment_executed
    ∧ (configure_chain s c cid sup rel).1.balances = s.balances
    ∧ (configure_chain s c cid sup rel).1.payment_counter = s.payment_counter := by
  unfold configure_chain
  split
  · exact ⟨rfl, rfl, rfl, rfl, rfl, rfl, rfl⟩
  · cases rel <;> exact ⟨rfl, rfl, rfl, rfl, rfl, rfl, rfl⟩

/-! ### Runs, counter monotonicity, record preservation -/

theorem run_nil (s : XcmHandler) : run s [] = s := rfl

theorem run_cons (s : XcmHandler) (op : Op) (tr : List Op) :
    run s (op :: tr) = run (applyOp s op) tr := rfl

theorem run_append (s : XcmHandler) (t1 t2 : List Op) :
    run s (t1 ++ t2) = run (run s t1) t2 := by
  simp [run, List.foldl_append]

theorem applyOp_counter (s : XcmHandler) (op : Op) (h : s.payment_counter ≤ U32MAX) :
    s.payment_counter ≤ (applyOp s op).payment_counter
    ∧ (applyOp s op).payment_counter ≤ U32MAX := by
  cases op with
  | deposit c a =>
      rcases deposit_cases s c a with hd | ⟨_, hd⟩ <;> simp [applyOp, hd, h]
  | create c r a dc mt ts =>
      rcases create_cases s c r a dc mt ts with ⟨e, hc⟩ | ⟨_, _, hc⟩
      · simp [applyOp, hc, h]
      · simp only [applyOp, hc, satAdd32]
        omega
  | execute c pid =>
      rcases execute_cases s c pid with ⟨e, hc⟩ | ⟨_, _, hc⟩ <;> simp [applyOp, hc, h]
  | configure c cid sup rel =>
      have hf := configure_frame s c cid sup rel
      simp [applyOp, hf.2.2.2.2.2.2, h]

theorem run_counter (s : XcmHandler) (tr : List Op) (h : s.payment_counter ≤ U32MAX) :
    s.payment_counter ≤ (run s tr).payment_counter
    ∧ (run s tr).payment_counter ≤ U32MAX := by
  induction tr generalizing s with
  | nil => exact ⟨Nat.le_refl _, h⟩
  | cons op tr ih =>
      have h1 := applyOp_counter s op h
      have h2 := ih (applyOp s op) h1.2
      exact ⟨Nat.le_trans h1.1 h2.1, h2.2⟩

theorem applyOp_preserves_record (s : XcmHandler) (op : Op) (pid : Nat)
    (hp : pid < s.payment_counter) :
    lookupA pid (applyOp s op).payment_amounts = lookupA pid s.payment_amounts
    ∧ lookupA pid (applyOp s op).payment_senders = lookupA pid s.payment_senders
    ∧ lookupA pid (applyOp s op).payment_recipients = lookupA pid s.payment_recipients
    ∧ lookupA pid (applyOp s op).payment_destination_chains
        = lookupA pid s.payment_destination_chains
    ∧ (lookupA pid s.payment_executed = some true →
        lookupA pid (applyOp s op).payment_executed = some true) := by
  have hne : pid ≠ s.payment_counter := Nat.ne_of_lt hp
  cases op with
  | deposit c a =>
      rcases deposit_cases s c a with hd | ⟨_, hd⟩ <;> simp [applyOp, hd]
  | create c r a dc mt ts =>
      rcases create_cases s c r a dc mt ts with ⟨e, hc⟩ | ⟨_, _, hc⟩
      · simp [applyOp, hc]
      · simp [applyOp, hc, lookupA_insertA_ne hne]
  | execute c pid2 =>
      rcases execute_cases s c pid2 with ⟨e, hc⟩ | ⟨_, _, hc⟩
      · simp [applyOp, hc]
      · refine ⟨by simp [applyOp, hc], by simp [applyOp, hc], by simp [applyOp, hc],
          by simp [applyOp, hc], ?_⟩
        intro ht
        by_cases hpp : pid = pid2
        · subst hpp
          simp [applyOp, hc, lookupA_insertA_self]
        · simp [applyOp, hc, lookupA_insertA_ne hpp, ht]
  | configure c cid sup rel =>
      have hf := configure_frame s c cid sup rel
      refine ⟨?_, ?_, ?_, ?_, ?_⟩ <;>
        simp [applyOp, hf.1, hf.2.1, hf.2.2.1, hf.2.2.2.1, hf.2.2.2.2.1]

theorem run_preserves_record (s : XcmHandler) (tr : List Op) (pid : Nat)
    (hctr : s.payment_counter ≤ U32MAX) (hp : pid < s.payment_counter) :
    lookupA pid (run s tr).payment_amounts = lookupA pid s.payment_amounts
    ∧ lookupA pid (run s tr).payment_senders = lookupA pid s.payment_senders
    ∧ lookupA pid (run s tr).payment_recipients = lookupA pid s.payment_recipients
    ∧ lookupA pid (run s tr).payment_destination_chains
        = lookupA pid s.payment_destination_chains
    ∧ (lookupA pid s.payment_executed = some true →
        lookupA pid (run s tr).payment_executed = some true) := by
  induction tr generalizing s with
  | nil => exact ⟨rfl, rfl, rfl, rfl, fun h => h⟩
  | cons op tr ih =>
      have hmc := applyOp_counter s op hctr
      have hstep := applyOp_preserves_record s op pid hp
      have hrec := ih (applyOp s op) hmc.2 (Nat.lt_of_lt_of_le hp hmc.1)
      rw [run_cons]
      exact ⟨hrec.1.trans hstep.1, hrec.2.1.trans hstep.2.1,
        hrec.2.2.1.trans hstep.2.2.1, hrec.2.2.2.1.trans hstep.2.2.2.1,
        fun h => hrec.2.2.2.2 (hstep.2.2.2.2 h)⟩

/-! ### C7: record immutability (amended) -/

/-- C7 (amended): for every payment id strictly below the `u32`-bounded
counter, any subsequent sequence of operations leaves the record's amount,
sender, recipient and destination chain unchanged, and an executed flag that
is true stays true. The unamended claim fails because the saturating counter
reuses and overwrites id `2^32 - 1`; see the counterexample. -/
theorem C7_record_immutability (s : XcmHandler) (tr : List Op) (pid : Nat)
    (hctr : s.payment_counter ≤ U32MAX) (hp : pid < s.payment_counter) :
    lookupA pid (run s tr).payment_amounts = lookupA pid s.payment_amounts
    ∧ lookupA pid (run s tr).payment_senders = lookupA pid s.payment_senders
    ∧ lookupA pid (run s tr).payment_recipients = lookupA pid s.payment_recipients
    ∧ lookupA pid (run s tr).payment_destination_chains
        = lookupA pid s.payment_destination_chains
    ∧ (lookupA pid s.payment_executed = some true →
        lookupA pid (run s tr).payment_executed = some true) :=
  run_preserves_record s tr pid hctr hp

/-- Witness for C7 at a concrete state: payment 0 (created and executed)
keeps all its fields across a further creation, a reconfiguration and a
deposit. -/
theorem C7_witness :
    ((run (XcmHandler.new 0) [.deposit 1 100, .create 1 2 5 1000 .Payment 0,
        .execute 0 0]).payment_counter ≤ U32MAX
      ∧ 0 < (run (XcmHandler.new 0) [.deposit 1 100, .create 1 2 5 1000 .Payment 0,
        .execute 0 0]).payment_counter)
    ∧ lookupA 0 (run (run (XcmHandler.new 0) [.deposit 1 100, .create 1 2 5 1000 .Payment 0,
        .execute 0 0]) [.create 1 2 7 1000 .Payment 0, .configure 0 1000 false (some 3),
        .deposit 2 5]).payment_amounts
      = lookupA 0 (run (XcmHandler.new 0) [.deposit 1 100, .create 1 2 5 1000 .Payment 0,
        .execute 0 0]).payment_amounts :=
  ⟨⟨by decide, by decide⟩,
   (C7_record_immutability
      (run (XcmHandler.new 0) [.deposit 1 100, .create 1 2 5 1000 .Payment 0, .execute 0 0])
      [.create 1 2 7 1000 .Payment 0, .configure 0 1000 false (some 3), .deposit 2 5]
      0 (by decide) (by decide)).1⟩

/-! ### C2: at-most-once settlement (amended) -/

/-- C2 (amended): an execute call on an existing record whose executed flag is
already true returns `AlreadyExecuted` and leaves the whole state (hence every
balance) unchanged; and after an execute on an id below the `u32`-bounded
counter succeeds, every later execute on that id — after any further call
sequence — fails that way, so execute succeeds at most once per id. The
unamended claim fails when the saturating counter reuses id `2^32 - 1`; see
the counterexample. -/
theorem C2_at_most_once_settlement :
    (∀ (s : XcmHandler) (c pid : Nat),
        containsA pid s.payment_senders = true →
        (lookupA pid s.payment_executed).getD false = true →
        execute_cross_chain_payment s c pid = (s, .error .AlreadyExecuted))
    ∧ (∀ (s : XcmHandler) (c1 c2 pid : Nat) (tr : List Op),
        s.payment_counter ≤ U32MAX → pid < s.payment_counter →
        (execute_cross_chain_payment s c1 pid).2 = .ok () →
        execute_cross_chain_payment
            (run (execute_cross_chain_payment s c1 pid).1 tr) c2 pid
          = (run (execute_cross_chain_payment s c1 pid).1 tr,
             .error .AlreadyExecuted)) := by
  have hstep : ∀ (s : XcmHandler) (c pid : Nat),
      containsA pid s.payment_senders = true →
      (lookupA pid s.payment_executed).getD false = true →
      execute_cross_chain_payment s c pid = (s, .error .AlreadyExecuted) := by
    intro s c pid h1 h2
    simp [execute_cross_chain_payment, h1, h2]
  refine ⟨hstep, ?_⟩
  intro s c1 c2 pid tr hctr hp hok
  rcases execute_cases s c1 pid with ⟨e, hc⟩ | ⟨hcon, hnex, hc⟩
  · rw [hc] at hok
    exact absurd hok (by simp)
  set s1 := (execute_cross_chain_payment s c1 pid).1 with hs1
  have hs1eq : s1 = { s with
      payment_executed := insertA pid true s.payment_executed
      balances := insertA ((lookupA pid s.payment_recipients).getD 0)
        (satAdd128
          ((lookupA ((lookupA pid s.payment_recipients).getD 0) s.balances).getD 0)
          ((lookupA pid s.payment_amounts).getD 0)) s.balances } := by
    rw [hs1, hc]
  have hctr1 : s1.payment_counter = s.payment_counter := by rw [hs1eq]
  have hpres := run_preserves_record s1 tr pid (by rw [hctr1]; exact hctr)
    (by rw [hctr1]; exact hp)
  have hsend : lookupA pid (run s1 tr).payment_senders = lookupA pid s.payment_senders := by
    rw [hpres.2.1, hs1eq]
  have hexe : lookupA pid (run s1 tr).payment_executed = some true := by
    refine hpres.2.2.2.2 ?_
    rw [hs1eq]
    exact lookupA_insertA_self ..
  refine hstep (run s1 tr) c2 pid ?_ ?_
  · unfold containsA at hcon ⊢
    rw [hsend]
    exact hcon
  · rw [hexe]
    rfl

/-- Witness for C2: on a concrete run, the owner executes payment 0, and after
a further deposit a second execute on id 0 fails with `AlreadyExecuted` and
changes nothing. -/
theorem C2_witness :
    (execute_cross_chain_payment
        (run (XcmHandler.new 0) [.deposit 1 100, .create 1 2 5 1000 .Payment 0]) 0 0).2
      = .ok ()
    ∧ execute_cross_chain_payment
        (run (execute_cross_chain_payment
          (run (XcmHandler.new 0) [.deposit 1 100, .create 1 2 5 1000 .Payment 0]) 0 0).1
          [.deposit 2 5]) 0 0
      = (run (execute_cross_chain_payment
          (run (XcmHandler.new 0) [.deposit 1 100, .create 1 2 5 1000 .Payment 0]) 0 0).1
          [.deposit 2 5], .error .AlreadyExecuted) :=
  ⟨rfl,
   C2_at_most_once_settlement.2
     (run (XcmHandler.new 0) [.deposit 1 100, .create 1 2 5 1000 .Payment 0])
     0 0 0 [.deposit 2 5] (by decide) (by decide) rfl⟩

/-! ### C6: payment id assignment (amended) -/

/-- C6 (amended): the counter starts at 0; a successful create returns the
pre-call counter value as the id and, while the counter is below `2^32 - 1`,
increments it by exactly one; a failed create leaves the state (hence the
counter) unchanged; and an id assigned while the counter is below `2^32 - 1`
is strictly smaller than the id of any later successful create, so such ids
are never reused. The unamended claim fails at the saturating cap; see the
counterexample. -/
theorem C6_payment_id_assignment :
    (∀ o, (XcmHandler.new o).payment_counter = 0)
    ∧ (∀ (s : XcmHandler) (c r a dc : Nat) (mt : XcmMessageType) (ts pid : Nat),
        (create_cross_chain_payment s c r a dc mt ts).2 = .ok pid →
        pid = s.payment_counter
        ∧ (s.payment_counter < U32MAX →
            (create_cross_chain_payment s c r a dc mt ts).1.payment_counter
              = s.payment_counter + 1))
    ∧ (∀ (s : XcmHandler) (c r a dc : Nat) (mt : XcmMessageType) (ts : Nat) (e : Error),
        (create_cross_chain_payment s c r a dc mt ts).2 = .error e →
        (create_cross_chain_payment s c r a dc mt ts).1 = s)
    ∧ (∀ (s : XcmHandler) (tr : List Op) (c1 r1 a1 dc1 : Nat) (m1 : XcmMessageType)
        (t1 c2 r2 a2 dc2 : Nat) (m2 : XcmMessageType) (t2 i j : Nat),
        s.payment_counter ≤ U32MAX →
        s.payment_counter < U32MAX →
        (create_cross_chain_payment s c1 r1 a1 dc1 m1 t1).2 = .ok i →
        (create_cross_chain_payment
            (run (create_cross_chain_payment s c1 r1 a1 dc1 m1 t1).1 tr)
            c2 r2 a2 dc2 m2 t2).2 = .ok j →
        i < j) := by
  have hok : ∀ (s : XcmHandler) (c r a dc : Nat) (mt : XcmMessageType) (ts pid : Nat),
      (create_cross_chain_payment s c r a dc mt ts).2 = .ok pid →
      pid = s.payment_counter
      ∧ (s.payment_counter < U32MAX →
          (create_cross_chain_payment s c r a dc mt ts).1.payment_counter
            = s.payment_counter + 1) := by
    intro s c r a dc mt ts pid h
    rcases create_cases s c r a dc mt ts with ⟨e, hc⟩ | ⟨_, _, hc⟩
    · rw [hc] at h
      exact absurd h (by simp)
    · rw [hc] at h
      refine ⟨by simpa using h.symm, fun hlt => ?_⟩
      rw [hc]
      simp only [satAdd32]
      omega
  refine ⟨fun o => rfl, hok, ?_, ?_⟩
  · intro s c r a dc mt ts e h
    rcases create_cases s c r a dc mt ts with ⟨e2, hc⟩ | ⟨_, _, hc⟩
    · rw [hc]
    · rw [hc] at h
      exact absurd h (by simp)
  · intro s tr c1 r1 a1 dc1 m1 t1 c2 r2 a2 dc2 m2 t2 i j hle hlt h1 h2
    have hfst := hok s c1 r1 a1 dc1 m1 t1 i h1
    set s1 := (create_cross_chain_payment s c1 r1 a1 dc1 m1 t1).1 with hs1
    have hctr1 : s1.payment_counter = s.payment_counter + 1 := hfst.2 hlt
    have hmono := run_counter s1 tr (by rw [hctr1]; omega)
    have hsnd := hok (run s1 tr) c2 r2 a2 dc2 m2 t2 j h2
    have : s.payment_counter + 1 ≤ j := by
      rw [hsnd.1]
      exact hctr1 ▸ hmono.1
    omega

/-- Witness for C6: fresh counter is 0; on a funded fresh engine the first
create returns id 0 and bumps the counter to 1; a create towards an
unsupported chain leaves the state unchanged; and a later create (after an
interleaved deposit) gets the strictly larger id 1. -/
theorem C6_witness :
    (XcmHandler.new 0).payment_counter = 0
    ∧ (0 : Nat) = (run (XcmHandler.new 0) [.deposit 1 100]).payment_counter
    ∧ (create_cross_chain_payment (run (XcmHandler.new 0) [.deposit 1 100])
        1 2 5 9999 .Payment 0).1 = run (XcmHandler.new 0) [.deposit 1 100]
    ∧ 0 < 1 := by
  refine ⟨C6_payment_id_assignment.1 0, ?_, ?_, ?_⟩
  · exact (C6_payment_id_assignment.2.1 (run (XcmHandler.new 0) [.deposit 1 100])
      1 2 5 1000 .Payment 0 0 rfl).1
  · exact C6_payment_id_assignment.2.2.1 (run (XcmHandler.new 0) [.deposit 1 100])
      1 2 5 9999 .Payment 0 .InvalidChain rfl
  · exact C6_payment_id_assignment.2.2.2 (run (XcmHandler.new 0) [.deposit 1 100])
      [.deposit 1 7] 1 2 5 1000 .Payment 0 1 3 5 1000 .Payment 0 0 1
      (by decide) (by decide) rfl rfl

/-! ### Driving the counter to its u32 cap -/

theorem mem_descPairs_lt {β : Type} {v : β} {k : Nat} {p : Nat × β}
    (hp : p ∈ descPairs v k) : p.1 < k := by
  induction k with
  | zero => simp [descPairs] at hp
  | succ k ih =>
      rcases (by simpa [descPairs] using hp : p = (k, v) ∨ p ∈ descPairs v k) with rfl | hm
      · simp
      · exact Nat.lt_succ_of_lt (ih hm)

theorem eraseA_descPairs {β : Type} (v : β) (k : Nat) :
    eraseA k (descPairs v k) = descPairs v k :=
  eraseA_of_forall_ne fun _ hp => Nat.ne_of_lt (mem_descPairs_lt hp)

theorem descPairs_succ {β : Type} (v : β) (k : Nat) :
    descPairs v (k + 1) = (k, v) :: descPairs v k := rfl

theorem eraseA_cons_self {β : Type} (k : Nat) (v : β) (rest : List (Nat × β)) :
    eraseA k ((k, v) :: rest) = eraseA k rest := by
  simp [eraseA]

theorem insertA_descPairs_reinsert {β : Type} (v : β) (k : Nat) :
    insertA k v (descPairs v (k + 1)) = descPairs v (k + 1) := by
  rw [descPairs_succ, insertA, eraseA_cons_self, eraseA_descPairs]

theorem step_stateAfterCreates (k : Nat) (h1 : k < U32MAX) (h2 : k < bigD) :
    applyOp (stateAfterCreates k) mkCreateOp = stateAfterCreates (k + 1) := by
  have hsup : lookupA 1000 (stateAfterCreates k).supported_chains = some true := rfl
  have hlb : lookupA 1 (stateAfterCreates k).balances = some (bigD - k) := rfl
  have hnlt : ¬ (bigD - k < 1) := by omega
  have hctr : satAdd32 k 1 = k + 1 := by
    simp only [satAdd32]
    omega
  show (create_cross_chain_payment (stateAfterCreates k) 1 2 1 1000 .Payment 0).1
        = stateAfterCreates (k + 1)
  simp only [create_cross_chain_payment, hsup, hlb, Option.getD_some, Bool.not_true,
    Bool.false_eq_true, if_false, hnlt, one_ne_zero, ite_false]
  simp only [stateAfterCreates, hctr, insertA, encodeMsgType, eraseA_descPairs, eraseA,
    if_pos rfl, descPairs]
  refine congrArg₂ _ ?_ rfl
  simp [Nat.sub_sub]

theorem run_replicate_creates (k : Nat) (hk : k ≤ U32MAX) (hD : k ≤ bigD) :
    run (stateAfterCreates 0) (List.replicate k mkCreateOp) = stateAfterCreates k := by
  induction k with
  | zero => rfl
  | succ k ih =>
      rw [List.replicate_succ', run_append, ih (by omega) (by omega)]
      exact step_stateAfterCreates k (by omega) (by omega)

theorem deposit_bigD :
    applyOp (XcmHandler.new 0) (.deposit 1 bigD) = stateAfterCreates 0 := by
  decide

theorem run_to_cap :
    run (XcmHandler.new 0) (.deposit 1 bigD :: List.replicate U32MAX mkCreateOp)
      = stateAfterCreates U32MAX := by
  rw [run_cons, deposit_bigD]
  exact run_replicate_creates U32MAX (Nat.le_refl _) (Nat.le_add_right U32MAX 5)

theorem create_at_cap :
    create_cross_chain_payment (stateAfterCreates U32MAX) 1 2 1 1000 .Payment 0
      = (stateCapB, .ok U32MAX) := by
  have hsup : lookupA 1000 (stateAfterCreates U32MAX).supported_chains = some true := rfl
  have hlb : lookupA 1 (stateAfterCreates U32MAX).balances = some (bigD - U32MAX) := rfl
  have hnlt : ¬ (bigD - U32MAX < 1) := by
    unfold bigD
    omega
  have hctr : satAdd32 U32MAX 1 = U32MAX := by
    simp only [satAdd32]
    omega
  have hcnt : (stateAfterCreates U32MAX).payment_counter = U32MAX := rfl
  have hsend : insertA U32MAX 1 (stateAfterCreates U32MAX).payment_senders
      = descPairs 1 (U32MAX + 1) := by
    show insertA U32MAX 1 (descPairs 1 U32MAX) = descPairs 1 (U32MAX + 1)
    rw [insertA, eraseA_descPairs, descPairs_succ]
  have hrcp : insertA U32MAX 2 (stateAfterCreates U32MAX).payment_recipients
      = descPairs 2 (U32MAX + 1) := by
    show insertA U32MAX 2 (descPairs 2 U32MAX) = descPairs 2 (U32MAX + 1)
    rw [insertA, eraseA_descPairs, descPairs_succ]
  have hamt : insertA U32MAX 1 (stateAfterCreates U32MAX).payment_amounts
      = descPairs 1 (U32MAX + 1) := by
    show insertA U32MAX 1 (descPairs 1 U32MAX) = descPairs 1 (U32MAX + 1)
    rw [insertA, eraseA_descPairs, descPairs_succ]
  have hsrc : insertA U32MAX 1000 (stateAfterCreates U32MAX).payment_source_chains
      = descPairs 1000 (U32MAX + 1) := by
    show insertA U32MAX 1000 (descPairs 1000 U32MAX) = descPairs 1000 (U32MAX + 1)
    rw [insertA, eraseA_descPairs, descPairs_succ]
  have hdst2 : insertA U32MAX 1000 (stateAfterCreates U32MAX).payment_destination_chains
      = descPairs 1000 (U32MAX + 1) := by
    show insertA U32MAX 1000 (descPairs 1000 U32MAX) = descPairs 1000 (U32MAX + 1)
    rw [insertA, eraseA_descPairs, descPairs_succ]
  have htyp : insertA U32MAX 0 (stateAfterCreates U32MAX).payment_types
      = descPairs 0 (U32MAX + 1) := by
    show insertA U32MAX 0 (descPairs 0 U32MAX) = descPairs 0 (U32MAX + 1)
    rw [insertA, eraseA_descPairs, descPairs_succ]
  have htim : insertA U32MAX 0 (stateAfterCreates U32MAX).payment_timestamps
      = descPairs 0 (U32MAX + 1) := by
    show insertA U32MAX 0 (descPairs 0 U32MAX) = descPairs 0 (U32MAX + 1)
    rw [insertA, eraseA_descPairs, descPairs_succ]
  have hexe0 : insertA U32MAX false (stateAfterCreates U32MAX).payment_executed
      = descPairs false (U32MAX + 1) := by
    show insertA U32MAX false (descPairs false U32MAX) = descPairs false (U32MAX + 1)
    rw [insertA, eraseA_descPairs, descPairs_succ]
  have hbal : insertA 1 (bigD - U32MAX - 1) (stateAfterCreates U32MAX).balances
      = [(1, bigD - (U32MAX + 1))] := by
    show insertA 1 (bigD - U32MAX - 1) [(1, bigD - U32MAX)] = [(1, bigD - (U32MAX + 1))]
    rw [insertA]
    simp [eraseA, Nat.sub_sub]
  simp only [create_cross_chain_payment, hsup, hlb, Option.getD_some, Bool.not_true,
    Bool.false_eq_true, if_false, hnlt, one_ne_zero, ite_false, encodeMsgType, hcnt,
    hsend, hrcp, hamt, hsrc, hdst2, htyp, htim, hexe0, hbal, hctr]
  rfl

theorem execute_at_cap :
    execute_cross_chain_payment stateCapB 0 U32MAX = (stateCapExec, .ok ()) := by
  have hcon : containsA U32MAX stateCapB.payment_senders = true := rfl
  have hexe : lookupA U32MAX stateCapB.payment_executed = some false := rfl
  have hrec : lookupA U32MAX stateCapB.payment_recipients = some 2 := rfl
  have hamt : lookupA U32MAX stateCapB.payment_amounts = some 1 := rfl
  have hdst : lookupA U32MAX stateCapB.payment_destination_chains = some 1000 := rfl
  have hrel : lookupA 1000 stateCapB.relayers = (none : Option Nat) := rfl
  have hown : stateCapB.owner = 0 := rfl
  have hbal2 : lookupA 2 stateCapB.balances = (none : Option Nat) := rfl
  have hsat : satAdd128 0 1 = 1 := rfl
  have her : eraseA U32MAX stateCapB.payment_executed = descPairs false U32MAX := by
    show eraseA U32MAX (descPairs false (U32MAX + 1)) = descPairs false U32MAX
    rw [descPairs_succ false U32MAX, eraseA_cons_self, eraseA_descPairs]
  simp only [execute_cross_chain_payment, hcon, Bool.not_true, Bool.false_eq_true,
    if_false, hexe, Option.getD_some, hrec, hamt, hdst, hrel, hown, hbal2,
    Option.getD_none, hsat]
  rw [if_neg (by simp)]
  simp only [stateCapExec, insertA, her]
  rfl

theorem create_after_exec :
    create_cross_chain_payment stateCapExec 1 2 1 1000 .Payment 0
      = (stateCapRe, .ok U32MAX) := by
  have hsup : lookupA 1000 stateCapExec.supported_chains = some true := rfl
  have hlb : lookupA 1 stateCapExec.balances = some (bigD - (U32MAX + 1)) := rfl
  have hnlt : ¬ (bigD - (U32MAX + 1) < 1) := by
    unfold bigD
    omega
  have hctr : satAdd32 U32MAX 1 = U32MAX := by
    simp only [satAdd32]
    omega
  have hexe : insertA U32MAX false stateCapExec.payment_executed
      = descPairs false (U32MAX + 1) := by
    show insertA U32MAX false ((U32MAX, true) :: descPairs false U32MAX)
        = descPairs false (U32MAX + 1)
    rw [insertA, eraseA_cons_self, eraseA_descPairs, descPairs_succ]
  have hsend : insertA U32MAX 1 stateCapExec.payment_senders = descPairs 1 (U32MAX + 1) := by
    show insertA U32MAX 1 (descPairs 1 (U32MAX + 1)) = descPairs 1 (U32MAX + 1)
    exact insertA_descPairs_reinsert 1 U32MAX
  have hrcp : insertA U32MAX 2 stateCapExec.payment_recipients = descPairs 2 (U32MAX + 1) := by
    show insertA U32MAX 2 (descPairs 2 (U32MAX + 1)) = descPairs 2 (U32MAX + 1)
    exact insertA_descPairs_reinsert 2 U32MAX
  have hamt : insertA U32MAX 1 stateCapExec.payment_amounts = descPairs 1 (U32MAX + 1) := by
    show insertA U32MAX 1 (descPairs 1 (U32MAX + 1)) = descPairs 1 (U32MAX + 1)
    exact insertA_descPairs_reinsert 1 U32MAX
  have hsrc : insertA U32MAX 1000 stateCapExec.payment_source_chains
      = descPairs 1000 (U32MAX + 1) := by
    show insertA U32MAX 1000 (descPairs 1000 (U32MAX + 1)) = descPairs 1000 (U32MAX + 1)
    exact insertA_descPairs_reinsert 1000 U32MAX
  have hdst : insertA U32MAX 1000 stateCapExec.payment_destination_chains
      = descPairs 1000 (U32MAX + 1) := by
    show insertA U32MAX 1000 (descPairs 1000 (U32MAX + 1)) = descPairs 1000 (U32MAX + 1)
    exact insertA_descPairs_reinsert 1000 U32MAX
  have htyp : insertA U32MAX 0 stateCapExec.payment_types = descPairs 0 (U32MAX + 1) := by
    show insertA U32MAX 0 (descPairs 0 (U32MAX + 1)) = descPairs 0 (U32MAX + 1)
    exact insertA_descPairs_reinsert 0 U32MAX
  have htim : insertA U32MAX 0 stateCapExec.payment_timestamps
      = descPairs 0 (U32MAX + 1) := by
    show insertA U32MAX 0 (descPairs 0 (U32MAX + 1)) = descPairs 0 (U32MAX + 1)
    exact insertA_descPairs_reinsert 0 U32MAX
  have hbal : insertA 1 (bigD - (U32MAX + 1) - 1) stateCapExec.balances
      = [(1, bigD - (U32MAX + 1) - 1), (2, 1)] := by
    show insertA 1 (bigD - (U32MAX + 1) - 1) [(2, 1), (1, bigD - (U32MAX + 1))] = _
    simp [insertA, eraseA]
  have hcexec : stateCapExec.payment_counter = U32MAX := rfl
  simp only [create_cross_chain_payment, hsup, hlb, Option.getD_some, Bool.not_true,
    Bool.false_eq_true, if_false, hnlt, one_ne_zero, ite_false, encodeMsgType, hcexec,
    hexe, hsend, hrcp, hamt, hsrc, hdst, htyp, htim, hbal, hctr]
  rfl

/-! ### Counterexamples to the unamended C6, C7, C2 -/

/-- Counterexample to C6 as stated: after `2^32 - 1` successful creations the
saturating counter stops moving — the next create still succeeds (returning
the current counter as id) but the counter is not incremented by one. -/
theorem C6_counterexample :
    (create_cross_chain_payment
        (run (XcmHandler.new 0) (.deposit 1 bigD :: List.replicate U32MAX mkCreateOp))
        1 2 1 1000 .Payment 0).2
      = .ok (run (XcmHandler.new 0)
          (.deposit 1 bigD :: List.replicate U32MAX mkCreateOp)).payment_counter
    ∧ (create_cross_chain_payment
        (run (XcmHandler.new 0) (.deposit 1 bigD :: List.replicate U32MAX mkCreateOp))
        1 2 1 1000 .Payment 0).1.payment_counter
      ≠ (run (XcmHandler.new 0)
          (.deposit 1 bigD :: List.replicate U32MAX mkCreateOp)).payment_counter + 1 := by
  rw [run_to_cap, create_at_cap]
  exact ⟨rfl, (Nat.succ_ne_self U32MAX).symm⟩

/-- Counterexample to C7 as stated: in a single call sequence, record
`2^32 - 1` has executed = true, and after one more create (which reuses the
saturated id) the same record's executed flag is false again. -/
theorem C7_counterexample :
    lookupA U32MAX (run (XcmHandler.new 0)
        (.deposit 1 bigD :: (List.replicate U32MAX mkCreateOp
          ++ [mkCreateOp, .execute 0 U32MAX]))).payment_executed = some true
    ∧ lookupA U32MAX (run (XcmHandler.new 0)
        (.deposit 1 bigD :: (List.replicate U32MAX mkCreateOp
          ++ [mkCreateOp, .execute 0 U32MAX, mkCreateOp]))).payment_executed
      = some false := by
  have h2 : applyOp (stateAfterCreates U32MAX) mkCreateOp = stateCapB := by
    show (create_cross_chain_payment (stateAfterCreates U32MAX) 1 2 1 1000 .Payment 0).1
        = stateCapB
    rw [create_at_cap]
  have h3 : applyOp stateCapB (.execute 0 U32MAX) = stateCapExec := by
    show (execute_cross_chain_payment stateCapB 0 U32MAX).1 = stateCapExec
    rw [execute_at_cap]
  have h4 : applyOp stateCapExec mkCreateOp = stateCapRe := by
    show (create_cross_chain_payment stateCapExec 1 2 1 1000 .Payment 0).1 = stateCapRe
    rw [create_after_exec]
  have hA : run (XcmHandler.new 0)
      (.deposit 1 bigD :: (List.replicate U32MAX mkCreateOp
        ++ [mkCreateOp, .execute 0 U32MAX])) = stateCapExec := by
    rw [show (Op.deposit 1 bigD :: (List.replicate U32MAX mkCreateOp
          ++ [mkCreateOp, .execute 0 U32MAX]))
        = (Op.deposit 1 bigD :: List.replicate U32MAX mkCreateOp)
          ++ [mkCreateOp, .execute 0 U32MAX] from rfl,
      run_append, run_to_cap]
    show applyOp (applyOp (stateAfterCreates U32MAX) mkCreateOp) (.execute 0 U32MAX)
        = stateCapExec
    rw [h2, h3]
  have hB : run (XcmHandler.new 0)
      (.deposit 1 bigD :: (List.replicate U32MAX mkCreateOp
        ++ [mkCreateOp, .execute 0 U32MAX, mkCreateOp])) = stateCapRe := by
    rw [show (Op.deposit 1 bigD :: (List.replicate U32MAX mkCreateOp
          ++ [mkCreateOp, .execute 0 U32MAX, mkCreateOp]))
        = (Op.deposit 1 bigD :: (List.replicate U32MAX mkCreateOp
          ++ [mkCreateOp, .execute 0 U32MAX])) ++ [mkCreateOp] from by simp,
      run_append, hA]
    show applyOp stateCapExec mkCreateOp = stateCapRe
    exact h4
  rw [hA, hB]
  exact ⟨rfl, rfl⟩

/-- Counterexample to C2 as stated: in a single call sequence, execute on
payment id `2^32 - 1` returns Ok twice — the saturated counter lets a later
create overwrite the executed record, reopening it for settlement. -/
theorem C2_counterexample :
    (execute_cross_chain_payment (run (XcmHandler.new 0)
        (.deposit 1 bigD :: (List.replicate U32MAX mkCreateOp ++ [mkCreateOp])))
        0 U32MAX).2 = .ok ()
    ∧ (execute_cross_chain_payment (run (XcmHandler.new 0)
        (.deposit 1 bigD :: (List.replicate U32MAX mkCreateOp
          ++ [mkCreateOp, .execute 0 U32MAX, mkCreateOp])))
        0 U32MAX).2 = .ok () := by
  have h2 : applyOp (stateAfterCreates U32MAX) mkCreateOp = stateCapB := by
    show (create_cross_chain_payment (stateAfterCreates U32MAX) 1 2 1 1000 .Payment 0).1
        = stateCapB
    rw [create_at_cap]
  have h3 : applyOp stateCapB (.execute 0 U32MAX) = stateCapExec := by
    show (execute_cross_chain_payment stateCapB 0 U32MAX).1 = stateCapExec
    rw [execute_at_cap]
  have h4 : applyOp stateCapExec mkCreateOp = stateCapRe := by
    show (create_cross_chain_payment stateCapExec 1 2 1 1000 .Payment 0).1 = stateCapRe
    rw [create_after_exec]
  have hA : run (XcmHandler.new 0)
      (.deposit 1 bigD :: (List.replicate U32MAX mkCreateOp ++ [mkCreateOp])) = stateCapB := by
    rw [show (Op.deposit 1 bigD :: (List.replicate U32MAX mkCreateOp ++ [mkCreateOp]))
        = (Op.deposit 1 bigD :: List.replicate U32MAX mkCreateOp) ++ [mkCreateOp] from rfl,
      run_append, run_to_cap]
    exact h2
  have hB : run (XcmHandler.new 0)
      (.deposit 1 bigD :: (List.replicate U32MAX mkCreateOp
        ++ [mkCreateOp, .execute 0 U32MAX, mkCreateOp])) = stateCapRe := by
    rw [show (Op.deposit 1 bigD :: (List.replicate U32MAX mkCreateOp
          ++ [mkCreateOp, .execute 0 U32MAX, mkCreateOp]))
        = ((Op.deposit 1 bigD :: List.replicate U32MAX mkCreateOp)
          ++ [mkCreateOp, .execute 0 U32MAX]) ++ [mkCreateOp] from by simp,
      run_append, run_append, run_to_cap]
    show applyOp (run (stateAfterCreates U32MAX) [mkCreateOp, .execute 0 U32MAX]) mkCreateOp
        = stateCapRe
    rw [show run (stateAfterCreates U32MAX) [mkCreateOp, .execute 0 U32MAX]
        = applyOp (applyOp (stateAfterCreates U32MAX) mkCreateOp) (.execute 0 U32MAX)
        from rfl, h2, h3]
    exact h4
  constructor
  · rw [hA]
    rw [show (execute_cross_chain_payment stateCapB 0 U32MAX).2 = .ok ()
        from by rw [execute_at_cap]]
  · rw [hB]
    have hcon : containsA U32MAX stateCapRe.payment_senders = true := rfl
    have hexe : lookupA U32MAX stateCapRe.payment_executed = some false := rfl
    have hdst : lookupA U32MAX stateCapRe.payment_destination_chains = some 1000 := rfl
    have hrel : lookupA 1000 stateCapRe.relayers = (none : Option Nat) := rfl
    have hown : stateCapRe.owner = 0 := rfl
    simp only [execute_cross_chain_payment, hcon, Bool.not_true, Bool.false_eq_true,
      if_false, hexe, Option.getD_some, hdst, hrel, hown, ite_false]
    rw [if_neg (by simp)]

/-! ### C1: conservation of funds -/

theorem mem_of_mem_eraseA {β : Type} {k : Nat} {m : List (Nat × β)} {p : Nat × β}
    (hp : p ∈ eraseA k m) : p ∈ m :=
  (eraseA_sublist k m).subset hp

theorem inv_deposit {s : XcmHandler} {d : Nat} (hinv : Inv s d) (c a : Nat)
    (hbound : d + a ≤ U128MAX) : Inv (deposit s c a) (d + a) := by
  by_cases hpos : 0 < a
  · have hd : deposit s c a =
        { s with balances :=
            insertA c (satAdd128 ((lookupA c s.balances).getD 0) a) s.balances } := by
      unfold deposit
      rw [if_pos hpos]
    have hble := lookupA_getD_le_valSum c s.balances
    have hb := hinv.books
    have hsat : satAdd128 ((lookupA c s.balances).getD 0) a
        = (lookupA c s.balances).getD 0 + a := by
      simp only [satAdd128]
      omega
    rw [hd]
    refine ⟨nodupKeys_insertA _ _ hinv.nodupBal, hinv.nodupAmt, hinv.keysLt, hinv.ctrLe, ?_⟩
    have hvs := valSum_insertA (k := c)
      (v := satAdd128 ((lookupA c s.balances).getD 0) a) hinv.nodupBal
    rw [hsat] at hvs
    show valSum (insertA c (satAdd128 ((lookupA c s.balances).getD 0) a) s.balances)
        + pendingAmounts s.payment_amounts s.payment_executed = d + a
    rw [hsat]
    omega
  · have ha : a = 0 := by omega
    have hd : deposit s c a = s := by
      unfold deposit
      rw [if_neg hpos]
    rw [hd, ha]
    simpa using hinv

theorem satAdd32_le_U32MAX (a b : Nat) : satAdd32 a b ≤ U32MAX := Nat.min_le_right _ _

theorem satAdd32_of_lt {a : Nat} (h : a < U32MAX) : satAdd32 a 1 = a + 1 := by
  simp only [satAdd32]
  omega

theorem inv_create {s : XcmHandler} {d : Nat} (hinv : Inv s d)
    (c r a dc : Nat) (mt : XcmMessageType) (ts : Nat)
    (hcap : s.payment_counter < U32MAX) :
    Inv (create_cross_chain_payment s c r a dc mt ts).1 d := by
  rcases create_cases s c r a dc mt ts with ⟨e, hc⟩ | ⟨ha0, hle, hc⟩
  · rw [hc]
    exact hinv
  · rw [hc]
    have hfresh : ∀ p ∈ s.payment_amounts, p.1 ≠ s.payment_counter :=
      fun p hp => Nat.ne_of_lt (hinv.keysLt p hp)
    have hpend := pendingAmounts_create (k := s.payment_counter) (v := a)
      (e := s.payment_executed) hfresh
    have hvs := valSum_insertA (k := c) (v := (lookupA c s.balances).getD 0 - a)
      hinv.nodupBal
    have hble := lookupA_getD_le_valSum c s.balances
    have hb := hinv.books
    refine ⟨nodupKeys_insertA _ _ hinv.nodupBal, nodupKeys_insertA _ _ hinv.nodupAmt,
      ?_, satAdd32_le_U32MAX _ _, ?_⟩
    · intro p hp
      show p.1 < satAdd32 s.payment_counter 1
      rw [satAdd32_of_lt hcap]
      rcases (by simpa [insertA] using hp :
          p = (s.payment_counter, a) ∨ p ∈ eraseA s.payment_counter s.payment_amounts)
        with rfl | hm
      · omega
      · exact Nat.lt_succ_of_lt (hinv.keysLt p (mem_of_mem_eraseA hm))
    · show valSum (insertA c ((lookupA c s.balances).getD 0 - a) s.balances)
          + pendingAmounts (insertA s.payment_counter a s.payment_amounts)
              (insertA s.payment_counter false s.payment_executed) = d
      rw [hpend]
      omega

theorem inv_execute {s : XcmHandler} {d : Nat} (hinv : Inv s d) (c pid : Nat)
    (hbound : d ≤ U128MAX) :
    Inv (execute_cross_chain_payment s c pid).1 d := by
  rcases execute_cases s c pid with ⟨e, hc⟩ | ⟨hcon, hnex, hc⟩
  · rw [hc]
    exact hinv
  · rw [hc]
    have hale : (lookupA pid s.payment_amounts).getD 0
        ≤ pendingAmounts s.payment_amounts s.payment_executed :=
      lookupA_getD_le_pendingAmounts hnex
    have hble := lookupA_getD_le_valSum ((lookupA pid s.payment_recipients).getD 0) s.balances
    have hb := hinv.books
    have hsat : satAdd128
        ((lookupA ((lookupA pid s.payment_recipients).getD 0) s.balances).getD 0)
        ((lookupA pid s.payment_amounts).getD 0)
        = (lookupA ((lookupA pid s.payment_recipients).getD 0) s.balances).getD 0
          + (lookupA pid s.payment_amounts).getD 0 := by
      simp only [satAdd128]
      omega
    have hvs := valSum_insertA (k := (lookupA pid s.payment_recipients).getD 0)
      (v := satAdd128
        ((lookupA ((lookupA pid s.payment_recipients).getD 0) s.balances).getD 0)
        ((lookupA pid s.payment_amounts).getD 0)) hinv.nodupBal
    rw [hsat] at hvs
    have hpe : pendingAmounts s.payment_amounts (insertA pid true s.payment_executed)
          + (lookupA pid s.payment_amounts).getD 0
        = pendingAmounts s.payment_amounts s.payment_executed :=
      pendingAmounts_execute hinv.nodupAmt hnex
    refine ⟨nodupKeys_insertA _ _ hinv.nodupBal, hinv.nodupAmt, hinv.keysLt, hinv.ctrLe, ?_⟩
    show valSum (insertA ((lookupA pid s.payment_recipients).getD 0)
          (satAdd128
            ((lookupA ((lookupA pid s.payment_recipients).getD 0) s.balances).getD 0)
            ((lookupA pid s.payment_amounts).getD 0)) s.balances)
        + pendingAmounts s.payment_amounts (insertA pid true s.payment_executed) = d
    rw [hsat]
    omega

theorem inv_configure {s : XcmHandler} {d : Nat} (hinv : Inv s d) (c cid : Nat)
    (sup : Bool) (rel : Option Nat) :
    Inv (configure_chain s c cid sup rel).1 d := by
  have hf := configure_frame s c cid sup rel
  refine ⟨?_, ?_, ?_, ?_, ?_⟩
  · rw [hf.2.2.2.2.2.1]
    exact hinv.nodupBal
  · rw [hf.2.2.1]
    exact hinv.nodupAmt
  · rw [hf.2.2.1, hf.2.2.2.2.2.2]
    exact hinv.keysLt
  · rw [hf.2.2.2.2.2.2]
    exact hinv.ctrLe
  · rw [hf.2.2.2.2.2.1, hf.2.2.1, hf.2.2.2.2.1]
    exact hinv.books

theorem applyOp_counter_le (s : XcmHandler) (op : Op) :
    (applyOp s op).payment_counter
      ≤ s.payment_counter + (if op.isCreate then 1 else 0) := by
  cases op with
  | deposit c a =>
      rcases deposit_cases s c a with hd | ⟨_, hd⟩ <;> simp [applyOp, hd, Op.isCreate]
  | create c r a dc mt ts =>
      rcases create_cases s c r a dc mt ts with ⟨e, hc⟩ | ⟨_, _, hc⟩
      · simp [applyOp, hc, Op.isCreate]
      · simp only [applyOp, hc, Op.isCreate, if_true, satAdd32]
        omega
  | execute c pid =>
      rcases execute_cases s c pid with ⟨e, hc⟩ | ⟨_, _, hc⟩ <;>
        simp [applyOp, hc, Op.isCreate]
  | configure c cid sup rel =>
      have hf := configure_frame s c cid sup rel
      simp [applyOp, hf.2.2.2.2.2.2, Op.isCreate]

theorem run_inv {s : XcmHandler} {d : Nat} (tr : List Op) (hinv : Inv s d)
    (hdep : d + depositTotal tr ≤ U128MAX)
    (hcr : s.payment_counter + createCount tr ≤ U32MAX) :
    Inv (run s tr) (d + depositTotal tr) := by
  induction tr generalizing s d with
  | nil => simpa using hinv
  | cons op tr ih =>
      have hdt : depositTotal (op :: tr) = op.depositAmount + depositTotal tr := rfl
      have hct : createCount (op :: tr) = (if op.isCreate then 1 else 0) + createCount tr := rfl
      rw [hdt] at hdep
      rw [hct] at hcr
      have hstep : Inv (applyOp s op) (d + op.depositAmount) := by
        cases op with
        | deposit c a =>
            have ha : Op.depositAmount (.deposit c a) = a := rfl
            rw [ha] at hdep ⊢
            exact inv_deposit hinv c a (by omega)
        | create c r a dc mt ts =>
            have ha : Op.depositAmount (.create c r a dc mt ts) = 0 := rfl
            have hb : Op.isCreate (.create c r a dc mt ts) = true := rfl
            rw [hb, if_pos rfl] at hcr
            rw [ha]
            simpa using inv_create hinv c r a dc mt ts (by omega)
        | execute c pid =>
            have ha : Op.depositAmount (.execute c pid) = 0 := rfl
            rw [ha]
            simpa using inv_execute hinv c pid (by omega)
        | configure c cid sup rel =>
            have ha : Op.depositAmount (.configure c cid sup rel) = 0 := rfl
            rw [ha]
            simpa using inv_configure hinv c cid sup rel
      have hcle := applyOp_counter_le s op
      rw [run_cons, hdt, ← Nat.add_assoc]
      exact ih hstep (by omega) (by omega)

/-- C1 (amended): starting from a fresh engine, for every finite call sequence
whose total deposits fit in a `u128` and which contains at most `2^32 - 1`
create calls, the sum of all account balances plus the sum of the amounts of
all stored non-executed payment records equals the sum of all amounts ever
deposited. The unamended claim fails because balance arithmetic saturates at
`u128::MAX` (and the saturating counter can overwrite a pending record); see
the counterexample. -/
theorem C1_conservation_of_funds (o : Nat) (tr : List Op)
    (hdep : depositTotal tr ≤ U128MAX) (hcr : createCount tr ≤ U32MAX) :
    valSum (run (XcmHandler.new o) tr).balances
      + pendingAmounts (run (XcmHandler.new o) tr).payment_amounts
          (run (XcmHandler.new o) tr).payment_executed
      = depositTotal tr := by
  have hinv0 : Inv (XcmHandler.new o) 0 :=
    ⟨List.Pairwise.nil, List.Pairwise.nil, by simp [XcmHandler.new], by simp [XcmHandler.new], rfl⟩
  have hrun := run_inv tr hinv0 (by simpa using hdep) (by simpa [XcmHandler.new] using hcr)
  simpa using hrun.books

/-- Witness for C1 on the spec's main scenario: deposit 5000 to account 1,
create a payment of 1000 towards chain 2000, execute it as the owner. -/
theorem C1_witness :
    (depositTotal [Op.deposit 1 5000, Op.create 1 2 1000 2000 .Payment 0, Op.execute 0 0]
        ≤ U128MAX
      ∧ createCount [Op.deposit 1 5000, Op.create 1 2 1000 2000 .Payment 0, Op.execute 0 0]
        ≤ U32MAX)
    ∧ valSum (run (XcmHandler.new 0)
          [Op.deposit 1 5000, Op.create 1 2 1000 2000 .Payment 0, Op.execute 0 0]).balances
        + pendingAmounts (run (XcmHandler.new 0)
            [Op.deposit 1 5000, Op.create 1 2 1000 2000 .Payment 0,
              Op.execute 0 0]).payment_amounts
            (run (XcmHandler.new 0)
              [Op.deposit 1 5000, Op.create 1 2 1000 2000 .Payment 0,
                Op.execute 0 0]).payment_executed
      = depositTotal [Op.deposit 1 5000, Op.create 1 2 1000 2000 .Payment 0,
          Op.execute 0 0] :=
  ⟨⟨by decide, by decide⟩,
   C1_conservation_of_funds 0
     [Op.deposit 1 5000, Op.create 1 2 1000 2000 .Payment 0, Op.execute 0 0]
     (by decide) (by decide)⟩

/-- Counterexample to C1 as stated: two deposits of `u128::MAX` saturate the
account balance, so the books hold less than the sum of all deposits. -/
theorem C1_counterexample :
    ¬ (valSum (run (XcmHandler.new 0)
          [Op.deposit 1 U128MAX, Op.deposit 1 U128MAX]).balances
        + pendingAmounts (run (XcmHandler.new 0)
            [Op.deposit 1 U128MAX, Op.deposit 1 U128MAX]).payment_amounts
            (run (XcmHandler.new 0)
              [Op.deposit 1 U128MAX, Op.deposit 1 U128MAX]).payment_executed
      = depositTotal [Op.deposit 1 U128MAX, Op.deposit 1 U128MAX]) := by
  decide

/-! ### C8: pending-count correctness -/

theorem pending_count_aux (s : XcmHandler) (user : Nat) :
    ∀ n, n ≤ U32MAX →
    (∀ i, i < n → (lookupA i s.payment_senders).isSome
        ∧ (lookupA i s.payment_recipients).isSome) →
    (List.range n).foldl (fun count i =>
      match lookupA i s.payment_senders with
      | some sender =>
          match lookupA i s.payment_recipients with
          | some recipient =>
              let executed := (lookupA i s.payment_executed).getD false
              if (sender = user ∨ recipient = user) ∧ executed = false then
                satAdd32 count 1
              else count
          | none => count
      | none => count) 0
      = ((List.range n).filter (fun i =>
          decide ((lookupA i s.payment_senders = some user
              ∨ lookupA i s.payment_recipients = some user)
            ∧ (lookupA i s.payment_executed).getD false = false))).length := by
  intro n
  induction n with
  | zero => intro _ _; rfl
  | succ n ih =>
      intro hle hrec
      have hstep := ih (by omega) (fun i hi => hrec i (by omega))
      obtain ⟨sv, hsv⟩ := Option.isSome_iff_exists.mp (hrec n (by omega)).1
      obtain ⟨rv, hrv⟩ := Option.isSome_iff_exists.mp (hrec n (by omega)).2
      have hlen : ((List.range n).filter (fun i =>
          decide ((lookupA i s.payment_senders = some user
              ∨ lookupA i s.payment_recipients = some user)
            ∧ (lookupA i s.payment_executed).getD false = false))).length ≤ n := by
        refine le_trans (List.length_filter_le _ _) ?_
        simp
      rw [List.range_succ, List.foldl_append, List.filter_append, List.length_append,
        hstep]
      simp only [List.foldl_cons, List.foldl_nil, hsv, hrv, List.filter_cons,
        List.filter_nil]
      by_cases hq : (sv = user ∨ rv = user)
          ∧ (lookupA n s.payment_executed).getD false = false
      · rw [if_pos hq]
        rw [if_pos (by simpa [hsv, hrv] using hq)]
        have hsat : satAdd32 (((List.range n).filter (fun i =>
            decide ((lookupA i s.payment_senders = some user
                ∨ lookupA i s.payment_recipients = some user)
              ∧ (lookupA i s.payment_executed).getD false = false))).length) 1
            = ((List.range n).filter (fun i =>
            decide ((lookupA i s.payment_senders = some user
                ∨ lookupA i s.payment_recipients = some user)
              ∧ (lookupA i s.payment_executed).getD false = false))).length + 1 := by
          simp only [satAdd32]
          omega
        rw [hsat]
        rfl
      · rw [if_neg hq]
        rw [if_neg (by simpa [hsv, hrv] using hq)]
        rfl

/-- C8: `get_pending_payments_count(user)` equals the number of ids
`0 ≤ i < payment_counter` whose stored record has the user as sender or as
recipient and executed = false, for every state whose counter fits in `u32`
and whose records below the counter store both sender and recipient — as all
reachable states do. -/
theorem C8_pending_count_correctness (s : XcmHandler) (user : Nat)
    (hctr : s.payment_counter ≤ U32MAX)
    (hrecs : ∀ i, i < s.payment_counter →
      (lookupA i s.payment_senders).isSome ∧ (lookupA i s.payment_recipients).isSome) :
    get_pending_payments_count s user = (pendingIdsSpec s user).length :=
  pending_count_aux s user s.payment_counter hctr hrecs

/-- Witness for C8 on the spec's scenario: P1 (sender 1, recipient 2),
P2 (sender 2, recipient 3), execute P1; the pending count of account 2 is 1. -/
theorem C8_witness :
    ((run (XcmHandler.new 0) [.deposit 1 10, .deposit 2 10, .create 1 2 5 1000 .Payment 0,
        .create 2 3 4 1000 .Payment 0, .execute 0 0]).payment_counter ≤ U32MAX
      ∧ ∀ i, i < (run (XcmHandler.new 0) [.deposit 1 10, .deposit 2 10,
          .create 1 2 5 1000 .Payment 0, .create 2 3 4 1000 .Payment 0,
          .execute 0 0]).payment_counter →
        (lookupA i (run (XcmHandler.new 0) [.deposit 1 10, .deposit 2 10,
          .create 1 2 5 1000 .Payment 0, .create 2 3 4 1000 .Payment 0,
          .execute 0 0]).payment_senders).isSome
        ∧ (lookupA i (run (XcmHandler.new 0) [.deposit 1 10, .deposit 2 10,
            .create 1 2 5 1000 .Payment 0, .create 2 3 4 1000 .Payment 0,
            .execute 0 0]).payment_recipients).isSome)
    ∧ get_pending_payments_count (run (XcmHandler.new 0) [.deposit 1 10, .deposit 2 10,
        .create 1 2 5 1000 .Payment 0, .create 2 3 4 1000 .Payment 0,
        .execute 0 0]) 2
      = (pendingIdsSpec (run (XcmHandler.new 0) [.deposit 1 10, .deposit 2 10,
          .create 1 2 5 1000 .Payment 0, .create 2 3 4 1000 .Payment 0,
          .execute 0 0]) 2).length
    ∧ get_pending_payments_count (run (XcmHandler.new 0) [.deposit 1 10, .deposit 2 10,
        .create 1 2 5 1000 .Payment 0, .create 2 3 4 1000 .Payment 0,
        .execute 0 0]) 2 = 1 :=
  ⟨⟨by decide, by decide⟩,
   C8_pending_count_correctness
     (run (XcmHandler.new 0) [.deposit 1 10, .deposit 2 10, .create 1 2 5 1000 .Payment 0,
       .create 2 3 4 1000 .Payment 0, .execute 0 0]) 2 (by decide) (by decide),
   by decide⟩

end Xcm
